import Mathlib

/-!
Verification of the time-capsule delivery scheduler.

Shallow embedding of the scheduler core of the repository:
  * `backend/src/controllers/timeCapsuleController.js`
    (`getCapsulesToSend`, `markCapsuleAsSent`, `createTimeCapsule` insert columns),
  * `backend/src/database/connection.js` (`createTimeCapsuleTable` schema),
  * `backend/cron/scheduler.js`
    (`processCapsule`, `processBatch`, `runScheduler`, `startScheduler`,
     `stopScheduler`, `runSchedulerManually`),
  * `backend/src/services/emailService.js` (`sendTimeCapsuleEmail`, `EMAIL_CONFIG`).

Timestamps are modelled as `Nat`.  The database table `time_capsules` is a
`List Capsule`.  Asynchronous effects are sequentialised; the observable
actions of a cycle (email dispatches, inter-chunk sleeps) are recorded in an
explicit event list.
-/

namespace Capsula

/-- Status column of a `time_capsules` row: `'pending' | 'sent' | 'failed'`
(the CHECK constraint of `createTimeCapsuleTable`). -/
inductive Status where
  | pending
  | sent
  | failed
deriving DecidableEq, Repr

/-- One row of the `time_capsules` table, with the fields the scheduler core
reads or writes (`id`, `email`, `open_date`, `status`, `sent_at`) plus the
payload fields carried along (`name`, `message`, `image_path`, `created_at`). -/
structure Capsule where
  id : Nat
  name : String := ""
  email : String := ""
  message : String := ""
  imagePath : Option String := none
  openDate : Nat := 0
  createdAt : Nat := 0
  status : Status := .pending
  sentAt : Option Nat := none
deriving DecidableEq, Repr

/-- Observable actions of a scheduler cycle: one `send` per call of
`sendTimeCapsuleEmail` from `processCapsule`, one `delay` per inter-chunk
`setTimeout` sleep in `processBatch`. -/
inductive Ev where
  | send (capsuleId : Nat)
  | delay (ms : Nat)
deriving DecidableEq, Repr

/-- State that a delivery task can touch: the `time_capsules` table and the
event log.  A delivery task never touches the scheduler flags or counters. -/
structure Db where
  store : List Capsule
  events : List Ev
deriving DecidableEq, Repr

/-- Process-local scheduler state: the mutable fields of `SCHEDULER_CONFIG`
and `processingState` in `scheduler.js`, plus `timerScheduled`, which models
whether the `node-cron` job created by `startScheduler` is currently
scheduled (the job object itself is a local variable of `startScheduler`). -/
structure W where
  store : List Capsule := []
  isRunning : Bool := false
  timerScheduled : Bool := false
  nextRun : Option Nat := none
  lastRun : Option Nat := none
  isProcessing : Bool := false
  processedCount : Nat := 0
  errorCount : Nat := 0
  totalProcessed : Nat := 0
  totalErrors : Nat := 0
  events : List Ev := []
deriving DecidableEq, Repr

/-- Constant fields of `SCHEDULER_CONFIG` in `scheduler.js` (defaults, no
environment overrides). -/
structure SchedulerConfig where
  maxConcurrentEmails : Nat
  delayBetweenEmails : Nat
  maxRetries : Nat
  retryDelay : Nat
deriving DecidableEq, Repr

/-- `SCHEDULER_CONFIG`: `maxConcurrentEmails = 3`, `delayBetweenEmails = 2000`,
`maxRetries = 3`, `retryDelay = 30000`. -/
def SCHEDULER_CONFIG : SchedulerConfig :=
  { maxConcurrentEmails := 3, delayBetweenEmails := 2000,
    maxRetries := 3, retryDelay := 30000 }

/-- Constant retry fields of `EMAIL_CONFIG` in `emailService.js`:
`maxRetries = 3`, `retryDelay = 5000`. -/
structure EmailConfig where
  maxRetries : Nat
  retryDelay : Nat
deriving DecidableEq, Repr

/-- `EMAIL_CONFIG` retry policy constants. -/
def EMAIL_CONFIG : EmailConfig := { maxRetries := 3, retryDelay := 5000 }

/-- Error message thrown by `markCapsuleAsSent` when the UPDATE matched no
row: `Cápsula não encontrada: ID <id>`. -/
def notFoundMsg (cid : Nat) : String :=
  "Cápsula não encontrada: ID " ++ toString cid

/-- `markCapsuleAsSent(capsuleId)`:
`UPDATE time_capsules SET status = 'sent', sent_at = NOW() WHERE id = $1 RETURNING *`;
throws when no row has the given id, otherwise returns the updated row.
The WHERE clause filters on `id` only — there is no `status = 'pending'`
condition. -/
def markCapsuleAsSent (store : List Capsule) (cid : Nat) (now : Nat) :
    Except String (Capsule × List Capsule) :=
  match store.find? (fun c => c.id == cid) with
  | none => .error (notFoundMsg cid)
  | some x =>
    .ok ({ x with status := .sent, sentAt := some now },
         store.map (fun c =>
           if c.id == cid then { c with status := .sent, sentAt := some now } else c))

/-- Ascending order on the `open_date` column (the `ORDER BY open_date ASC`
of `getCapsulesToSend`). -/
def openDateLE (u v : Capsule) : Prop := u.openDate ≤ v.openDate

instance : DecidableRel openDateLE := fun u v => Nat.decLe u.openDate v.openDate

instance : IsTotal Capsule openDateLE := ⟨fun u v => Nat.le_total u.openDate v.openDate⟩

instance : IsTrans Capsule openDateLE := ⟨fun _ _ _ h1 h2 => Nat.le_trans h1 h2⟩

/-- The WHERE predicate of `getCapsulesToSend`:
`status = 'pending' AND open_date <= NOW()`. -/
def isDue (now : Nat) (c : Capsule) : Bool :=
  c.status == .pending && decide (c.openDate ≤ now)

/-- `getCapsulesToSend()`:
`SELECT * FROM time_capsules WHERE status = 'pending' AND open_date <= NOW() ORDER BY open_date ASC`.
A read-only query: rows are filtered and sorted ascending by `open_date`. -/
def getCapsulesToSend (store : List Capsule) (now : Nat) : List Capsule :=
  List.insertionSort openDateLE (store.filter (isDue now))

/-- State-passing form of `getCapsulesToSend`, making explicit that the query
returns the rows and leaves the table as it was. -/
def getCapsulesToSendS (store : List Capsule) (now : Nat) :
    List Capsule × List Capsule :=
  (getCapsulesToSend store now, store)

/-- Result object of `sendTimeCapsuleEmail`: either
`{success: true, messageId, response}` or `{success: false, error, retries}`. -/
inductive EmailResult where
  | success (messageId : String) (response : String)
  | failure (error : String) (retries : Nat)
deriving DecidableEq, Repr

/-- `sendTimeCapsuleEmail(capsule, retryCount)` from `emailService.js`,
abstracted over the outcome of each SMTP attempt (`attempt k` is the result
of the attempt with `retryCount = k`; an `Except.error` is a thrown send
error caught by the surrounding `try`).  The second component lists the
sleeps performed between attempts (`setTimeout(..., EMAIL_CONFIG.retryDelay)`).
The function catches every attempt error: while
`retryCount < EMAIL_CONFIG.maxRetries - 1` it sleeps and recurses with
`retryCount + 1`, otherwise it returns the failure object carrying the last
error message and `retries = retryCount + 1`. -/
def sendTimeCapsuleEmail (attempt : Nat → Except String (String × String))
    (retryCount : Nat) : EmailResult × List Nat :=
  match attempt retryCount with
  | .ok (mid, resp) => (.success mid resp, [])
  | .error e =>
    if retryCount < EMAIL_CONFIG.maxRetries - 1 then
      let r := sendTimeCapsuleEmail attempt (retryCount + 1)
      (r.1, EMAIL_CONFIG.retryDelay :: r.2)
    else
      (.failure e (retryCount + 1), [])
termination_by EMAIL_CONFIG.maxRetries - retryCount
decreasing_by simp [EMAIL_CONFIG] at *; omega

/-- Per-capsule result object pushed into `results` by `processBatch`. -/
structure Outcome where
  success : Bool
  capsuleId : Nat
  email : String
  messageId : Option String := none
  error : Option String := none
deriving DecidableEq, Repr

/-- `processCapsule(capsule)` from `scheduler.js`, abstracted over the final
outcome of `sendTimeCapsuleEmail` (`es`).  It dispatches exactly one email
(recorded as an `Ev.send` event); on email success it calls
`markCapsuleAsSent`; a `markCapsuleAsSent` throw is caught and yields a
failure outcome with the thrown message; an email failure yields a failure
outcome with `emailResult.error || 'Falha no envio de email'`. -/
def processCapsule (es : Capsule → EmailResult) (now : Nat) (c : Capsule)
    (db : Db) : Outcome × Db :=
  let db1 : Db := { db with events := db.events ++ [.send c.id] }
  match es c with
  | .success mid _resp =>
    match markCapsuleAsSent db1.store c.id now with
    | .ok (_, store2) =>
      ({ success := true, capsuleId := c.id, email := c.email,
         messageId := some mid, error := none },
       { db1 with store := store2 })
    | .error e =>
      ({ success := false, capsuleId := c.id, email := c.email,
         messageId := none, error := some e }, db1)
  | .failure e _ =>
    ({ success := false, capsuleId := c.id, email := c.email,
       messageId := none,
       error := some (if e = "" then "Falha no envio de email" else e) }, db1)

/-- Result of one settled promise of a chunk, as seen by
`Promise.allSettled` in `processBatch`: the task either fulfilled with an
`Outcome` or rejected with a reason. -/
inductive Settled where
  | fulfilled (o : Outcome)
  | rejected (reason : String)
deriving DecidableEq, Repr

/-- A delivery task: what `processBatch` dispatches for one capsule.  It may
read and write the table and the event log, nothing else. -/
abbrev Task := Capsule → Db → Settled × Db

/-- The task actually dispatched by `processBatch` in `scheduler.js`:
`processCapsule`, whose promise always fulfills (its body is wrapped in a
`try`/`catch` that returns an outcome object). -/
def mkTask (es : Capsule → EmailResult) (now : Nat) : Task := fun c db =>
  let r := processCapsule es now c db
  (.fulfilled r.1, r.2)

/-- Conversion of one settled result to the outcome pushed into `results`:
a fulfilled value is pushed as-is; a rejection is converted at the per-task
boundary into `{success: false, capsuleId: batch[index].id, email, error:
result.reason.message || 'Erro crítico'}`. -/
def settleOne (c : Capsule) (s : Settled) : Outcome :=
  match s with
  | .fulfilled o => o
  | .rejected reason =>
    { success := false, capsuleId := c.id, email := c.email,
      messageId := none,
      error := some (if reason = "" then "Erro crítico" else reason) }

/-- The `batches` partition of `processBatch`:
`for (let i = 0; i < capsules.length; i += maxConcurrent) push(slice(i, i + maxConcurrent))`,
consecutive chunks of size `n` preserving order.  (For `n = 0` the source
loop would not advance; the model then behaves as `n = 1`, a case never
reached: `parseInt(...) || 3` cannot produce 0.) -/
def chunksOf (n : Nat) : List α → List (List α)
  | [] => []
  | x :: xs => (x :: xs.take (n - 1)) :: chunksOf n (xs.drop (n - 1))
termination_by l => l.length
decreasing_by
  simp only [List.length_cons]
  exact Nat.lt_succ_of_le (List.length_drop .. ▸ Nat.sub_le ..)

/-- Per-result bookkeeping of the `forEach` in `processBatch`: a success
increments `processedCount`/`totalProcessed`, a failure (fulfilled-false or
rejected) increments `errorCount`/`totalErrors`. -/
def recordResult (w : W) (o : Outcome) : W :=
  if o.success then
    { w with processedCount := w.processedCount + 1,
             totalProcessed := w.totalProcessed + 1 }
  else
    { w with errorCount := w.errorCount + 1,
             totalErrors := w.totalErrors + 1 }

/-- One chunk of `processBatch`: dispatch every member's task and collect the
settled results (`Promise.allSettled`), threading the shared table. -/
def runChunk (task : Task) : List Capsule → Db → List (Capsule × Settled) × Db
  | [], db => ([], db)
  | c :: cs, db =>
    let r := task c db
    let rest := runChunk task cs r.2
    ((c, r.1) :: rest.1, rest.2)

/-- One iteration of the chunk loop of `processBatch`: dispatch the chunk,
await all settled results (`Promise.allSettled`), convert each to an outcome
and run the `forEach` bookkeeping over them. -/
def stepChunk (task : Task) (b : List Capsule) (w : W) : List Outcome × W :=
  let r := runChunk task b ⟨w.store, w.events⟩
  let outs := r.1.map (fun p => settleOne p.1 p.2)
  (outs, outs.foldl recordResult { w with store := r.2.store, events := r.2.events })

/-- The chunk loop of `processBatch`: process each chunk, record its results,
and sleep `delayBetweenEmails` between chunks — the sleep is skipped after
the last chunk (`batch !== batches[batches.length - 1]`, which for the
distinct slice objects is exactly "not the last position") and when the
configured delay is 0. -/
def processBatchGo (task : Task) : List (List Capsule) → W → List Outcome × W
  | [], w => ([], w)
  | [b], w => stepChunk task b w
  | b :: b2 :: rest2, w =>
    let s := stepChunk task b w
    let w2 := if SCHEDULER_CONFIG.delayBetweenEmails > 0
      then { s.2 with events := s.2.events ++ [.delay SCHEDULER_CONFIG.delayBetweenEmails] }
      else s.2
    let r2 := processBatchGo task (b2 :: rest2) w2
    (s.1 ++ r2.1, r2.2)

/-- `processBatch(capsules)` from `scheduler.js`: partition into chunks of
`SCHEDULER_CONFIG.maxConcurrentEmails` and run the chunk loop. -/
def processBatch (task : Task) (caps : List Capsule) (w : W) :
    List Outcome × W :=
  processBatchGo task (chunksOf SCHEDULER_CONFIG.maxConcurrentEmails caps) w

/-- Observable outcome of one `runScheduler` invocation (what the code logs
and returns along each path). -/
inductive RunOutcome where
  | skipped
  | errored (msg : String)
  | empty
  | completed (results : List Outcome)
deriving DecidableEq, Repr

/-- Entry bookkeeping of `runScheduler`: set the single-flight flag and reset
the per-cycle counters. -/
def cycleStart (w : W) : W :=
  { w with isProcessing := true, processedCount := 0, errorCount := 0 }

/-- `runScheduler()` from `scheduler.js`, abstracted over the due-capsule
query (`fetch`, reading the table, possibly throwing) and the per-capsule
task.  If a cycle is already in flight it logs a skip and returns.  Otherwise
it marks the cycle started, fetches; a fetch throw is caught, incrementing
`SCHEDULER_CONFIG.totalErrors`; an empty fetch ends the cycle; otherwise the
batch is processed and `lastRun` stamped.  The `finally` clears
`isProcessing` on every path. -/
def runScheduler (fetch : List Capsule → Except String (List Capsule))
    (task : Task) (now : Nat) (w : W) : RunOutcome × W :=
  if w.isProcessing then (.skipped, w)
  else
    let w1 := cycleStart w
    match fetch w1.store with
    | .error e =>
      (.errored e, { w1 with totalErrors := w1.totalErrors + 1, isProcessing := false })
    | .ok caps =>
      if caps.isEmpty then (.empty, { w1 with isProcessing := false })
      else
        let r := processBatch task caps w1
        (.completed r.1, { r.2 with lastRun := some now, isProcessing := false })

/-- Structured result object returned by `runSchedulerManually`. -/
structure ManualResult where
  success : Bool
  message : Option String
  error : Option String
deriving DecidableEq, Repr

/-- `runSchedulerManually()` from `scheduler.js`: await the run inside a
`try`; on completion return `{success: true, message}`; a throw from the run
is caught and returned as `{success: false, error}` — nothing propagates
past the control surface.  The runner is abstract so that the catch branch
is part of the model even though `runScheduler` itself never throws. -/
def runSchedulerManually (runner : W → Except String (RunOutcome × W))
    (w : W) : ManualResult × W :=
  match runner w with
  | .ok (_, w1) =>
    ({ success := true, message := some "Scheduler executado com sucesso",
       error := none }, w1)
  | .error e =>
    ({ success := false, message := none, error := some e }, w)

/-- `startScheduler()` from `scheduler.js` (with the valid default cron
pattern `*/5 * * * *`): refuse when already running; otherwise create and
start the `node-cron` job (modelled by `timerScheduled := true`) and set
`isRunning`.  The job object is a local variable of this function. -/
def startScheduler (w : W) (next : Nat) : Bool × W :=
  if w.isRunning then (false, w)
  else (true, { w with isRunning := true, timerScheduled := true,
                       nextRun := some next })

/-- `stopScheduler()` from `scheduler.js`, observed after its 1-second
polling loop has seen `processingState.isProcessing` clear: it sets
`isRunning := false` and `nextRun := null` and resolves `true`.  It never
touches the `node-cron` job — the job handle is a local variable of
`startScheduler` — so `timerScheduled` is left unchanged. -/
def stopSchedulerDrained (w : W) : Bool × W :=
  if !w.isRunning then (false, w)
  else (true, { w with isRunning := false, nextRun := none })

/-- A fire of the recurring `node-cron` trigger: if the job is still
scheduled it invokes `runScheduler` (the `cron.schedule` callback), otherwise
nothing happens. -/
def timerTick (fetch : List Capsule → Except String (List Capsule))
    (task : Task) (now : Nat) (w : W) : Option RunOutcome × W :=
  if w.timerScheduled then
    let r := runScheduler fetch task now w
    (some r.1, r.2)
  else (none, w)

/-- Columns of the table created by `createTimeCapsuleTable` in
`connection.js`. -/
def createTimeCapsuleTableColumns : List String :=
  ["id", "name", "email", "message", "delivery_date", "image_path",
   "image_original_name", "status", "created_at", "sent_at"]

/-- Columns referenced by the WHERE and ORDER BY clauses of
`getCapsulesToSend` in `timeCapsuleController.js`. -/
def getCapsulesToSendColumns : List String := ["status", "open_date"]

/-- Column list of the INSERT statement of `createTimeCapsule` in
`timeCapsuleController.js`. -/
def createTimeCapsuleInsertColumns : List String :=
  ["name", "email", "message", "image_path", "open_date", "status"]

/-- A query referencing a column absent from the table's schema raises
(PostgreSQL: `column ... does not exist`). -/
def columnsValid (schema refs : List String) : Bool :=
  refs.all (fun c => schema.contains c)

/-- Execution of the `getCapsulesToSend` query against a store whose table
was created with the given schema: the query errors when it references a
column the schema does not have, otherwise it returns the due rows. -/
def runSelectDue (schema : List String) (store : List Capsule) (now : Nat) :
    Except String (List Capsule) :=
  if columnsValid schema getCapsulesToSendColumns then
    .ok (getCapsulesToSend store now)
  else
    .error "column open_date does not exist"

/-- Dispatch events of one chunk: one email send per member, in chunk order. -/
def chunkSends (b : List Capsule) : List Ev :=
  b.map (fun c => .send c.id)

/-- Expected event trace of the chunk loop: the sends of each chunk in
order, separated by one inter-chunk delay, with no delay after the last
chunk. -/
def batchEvents : List (List Capsule) → List Ev
  | [] => []
  | [b] => chunkSends b
  | b :: b2 :: rest =>
    chunkSends b ++ [.delay SCHEDULER_CONFIG.delayBetweenEmails]
      ++ batchEvents (b2 :: rest)

/-! ### Helper lemmas -/

/-- Concatenating the chunks gives back the input list: the partition is
into consecutive chunks preserving order. -/
theorem chunksOf_join (n : Nat) : ∀ l : List α, (chunksOf n l).flatten = l
  | [] => by simp [chunksOf]
  | x :: xs => by
    have ih := chunksOf_join n (xs.drop (n - 1))
    simp [chunksOf, ih]
termination_by l => l.length
decreasing_by
  simp only [List.length_cons]
  exact Nat.lt_succ_of_le (List.length_drop .. ▸ Nat.sub_le ..)

/-- Every chunk of the partition has at most `n` elements (for `n ≥ 1`). -/
theorem chunksOf_length_le (n : Nat) (hn : 1 ≤ n) :
    ∀ (l : List α) (b : List α), b ∈ chunksOf n l → b.length ≤ n
  | [], b => by simp [chunksOf]
  | x :: xs, b => by
    intro hb
    rw [chunksOf] at hb
    rcases List.mem_cons.mp hb with h | h
    · subst h
      simp only [List.length_cons]
      have := List.length_take_le (n - 1) xs
      omega
    · exact chunksOf_length_le n hn (xs.drop (n - 1)) b h
termination_by l => l.length
decreasing_by
  simp only [List.length_cons]
  exact Nat.lt_succ_of_le (List.length_drop .. ▸ Nat.sub_le ..)

/-- The `forEach` bookkeeping only touches counters. -/
theorem recordResult_fields (w : W) (o : Outcome) :
    (recordResult w o).store = w.store ∧ (recordResult w o).events = w.events ∧
    (recordResult w o).isProcessing = w.isProcessing ∧
    (recordResult w o).lastRun = w.lastRun ∧
    (recordResult w o).isRunning = w.isRunning ∧
    (recordResult w o).timerScheduled = w.timerScheduled ∧
    (recordResult w o).nextRun = w.nextRun := by
  unfold recordResult
  split <;> simp

/-- Folding the bookkeeping over the outcomes of a chunk only touches
counters. -/
theorem foldl_recordResult_fields (outs : List Outcome) :
    ∀ w : W,
    (outs.foldl recordResult w).store = w.store ∧
    (outs.foldl recordResult w).events = w.events ∧
    (outs.foldl recordResult w).isProcessing = w.isProcessing ∧
    (outs.foldl recordResult w).lastRun = w.lastRun ∧
    (outs.foldl recordResult w).isRunning = w.isRunning ∧
    (outs.foldl recordResult w).timerScheduled = w.timerScheduled ∧
    (outs.foldl recordResult w).nextRun = w.nextRun := by
  induction outs with
  | nil => intro w; simp
  | cons o os ih =>
    intro w
    obtain ⟨a1, a2, a3, a4, a5, a6, a7⟩ := recordResult_fields w o
    obtain ⟨b1, b2, b3, b4, b5, b6, b7⟩ := ih (recordResult w o)
    simp only [List.foldl_cons]
    exact ⟨b1.trans a1, b2.trans a2, b3.trans a3, b4.trans a4,
           b5.trans a5, b6.trans a6, b7.trans a7⟩

/-- The outcome built by `processCapsule` always carries the processed
capsule's id. -/
theorem processCapsule_capsuleId (es : Capsule → EmailResult) (now : Nat)
    (c : Capsule) (db : Db) :
    ((processCapsule es now c db).1).capsuleId = c.id := by
  rcases h : es c with __ | __
  · rcases h2 : markCapsuleAsSent db.store c.id now with e2 | p2
    · simp [processCapsule, h, h2]
    · simp [processCapsule, h, h2]
  · simp [processCapsule, h]

/-- `processCapsule` dispatches exactly one email for its capsule, on every
path. -/
theorem processCapsule_events (es : Capsule → EmailResult) (now : Nat)
    (c : Capsule) (db : Db) :
    ((processCapsule es now c db).2).events = db.events ++ [Ev.send c.id] := by
  rcases h : es c with __ | __
  · rcases h2 : markCapsuleAsSent db.store c.id now with e2 | p2
    · simp [processCapsule, h, h2]
    · simp [processCapsule, h, h2]
  · simp [processCapsule, h]

/-- A chunk yields one settled result per member. -/
theorem runChunk_length (task : Task) :
    ∀ (cs : List Capsule) (db : Db),
    (runChunk task cs db).1.length = cs.length
  | [], _ => rfl
  | c :: cs, db => by
    simp [runChunk, runChunk_length task cs]

/-- With the real task, the settled results of a chunk carry the members'
ids, in chunk order. -/
theorem runChunk_mkTask_ids (es : Capsule → EmailResult) (now : Nat) :
    ∀ (cs : List Capsule) (db : Db),
    ((runChunk (mkTask es now) cs db).1.map
      (fun p => settleOne p.1 p.2)).map (fun o => o.capsuleId) =
      cs.map (fun c => c.id)
  | [], _ => rfl
  | c :: cs, db => by
    have ih := runChunk_mkTask_ids es now cs (processCapsule es now c db).2
    simp only [runChunk, mkTask, List.map_cons, ih]
    simp [settleOne, processCapsule_capsuleId]

/-- With the real task, a chunk appends exactly its members' send events to
the log, in chunk order. -/
theorem runChunk_mkTask_events (es : Capsule → EmailResult) (now : Nat) :
    ∀ (cs : List Capsule) (db : Db),
    ((runChunk (mkTask es now) cs db).2).events = db.events ++ chunkSends cs
  | [], _ => by simp [runChunk, chunkSends]
  | c :: cs, db => by
    have ih := runChunk_mkTask_events es now cs (processCapsule es now c db).2
    simp only [runChunk, mkTask, ih, processCapsule_events]
    simp [chunkSends]

/-- The state after one chunk iteration: the log has grown by exactly the
chunk's send events. -/
theorem stepChunk_mkTask_events (es : Capsule → EmailResult) (now : Nat)
    (b : List Capsule) (w : W) :
    ((stepChunk (mkTask es now) b w).2).events = w.events ++ chunkSends b := by
  unfold stepChunk
  rw [(foldl_recordResult_fields _ _).2.1]
  exact runChunk_mkTask_events es now b ⟨w.store, w.events⟩

/-- The outcomes of one chunk iteration carry the members' ids, in order. -/
theorem stepChunk_mkTask_ids (es : Capsule → EmailResult) (now : Nat)
    (b : List Capsule) (w : W) :
    (stepChunk (mkTask es now) b w).1.map (fun o => o.capsuleId) =
      b.map (fun c => c.id) := by
  unfold stepChunk
  exact runChunk_mkTask_ids es now b ⟨w.store, w.events⟩

/-- With the real task, the chunk loop emits one outcome per input capsule
of the concatenated chunks, in order, each carrying that capsule's id. -/
theorem processBatchGo_mkTask_ids (es : Capsule → EmailResult) (now : Nat) :
    ∀ (bs : List (List Capsule)) (w : W),
    (processBatchGo (mkTask es now) bs w).1.map (fun o => o.capsuleId) =
      bs.flatten.map (fun c => c.id)
  | [], _ => rfl
  | [b], w => by
    simpa [processBatchGo] using stepChunk_mkTask_ids es now b w
  | b :: b2 :: rest2, w => by
    have ih := processBatchGo_mkTask_ids es now (b2 :: rest2)
    simp only [processBatchGo, List.map_append, List.flatten_cons, ih,
      stepChunk_mkTask_ids, List.map_append]

/-- With the real task, the chunk loop appends exactly the expected event
trace: each chunk's sends in order, one inter-chunk delay between chunks,
no delay after the last chunk. -/
theorem processBatchGo_mkTask_events (es : Capsule → EmailResult) (now : Nat) :
    ∀ (bs : List (List Capsule)) (w : W),
    ((processBatchGo (mkTask es now) bs w).2).events = w.events ++ batchEvents bs
  | [], w => by simp [processBatchGo, batchEvents]
  | [b], w => by
    simpa [processBatchGo, batchEvents] using stepChunk_mkTask_events es now b w
  | b :: b2 :: rest2, w => by
    have ih := processBatchGo_mkTask_events es now (b2 :: rest2)
    simp only [processBatchGo, ih]
    rw [if_pos (by simp [SCHEDULER_CONFIG])]
    simp only [stepChunk_mkTask_events, batchEvents]
    simp [chunkSends]

/-- A list that is a permutation of three capsules with strictly increasing
open dates and is sorted ascending by open date is exactly that
three-capsule list. -/
theorem sorted_three {l : List Capsule} {x y z : Capsule}
    (hp : l.Perm [x, y, z]) (hs : l.Sorted openDateLE)
    (hxy : x.openDate < y.openDate) (hyz : y.openDate < z.openDate) :
    l = [x, y, z] := by
  have hlen : l.length = 3 := by simpa using hp.length_eq
  rcases l with _ | ⟨u, _ | ⟨v, _ | ⟨w, _ | ⟨t4, rest⟩⟩⟩⟩
  · simp at hlen
  · simp at hlen
  · simp at hlen
  case cons.cons.cons.cons => simp at hlen
  simp only [List.Sorted, List.pairwise_cons, List.mem_cons,
    List.mem_singleton, List.not_mem_nil] at hs
  have huv : openDateLE u v := hs.1 v (Or.inl rfl)
  have huw : openDateLE u w := hs.1 w (Or.inr (Or.inl rfl))
  have hvw : openDateLE v w := hs.2.1 w (Or.inl rfl)
  unfold openDateLE at huv huw hvw
  have hu : u ∈ [x, y, z] := hp.mem_iff.mp (by simp)
  have hxm : x ∈ [u, v, w] := hp.mem_iff.mpr (by simp)
  simp only [List.mem_cons, List.mem_singleton, List.not_mem_nil, or_false] at hu hxm
  have hux : u = x := by
    rcases hu with h | h | h
    · exact h
    · exfalso
      rcases hxm with h2 | h2 | h2 <;> (subst h; subst h2; omega)
    · exfalso
      rcases hxm with h2 | h2 | h2 <;> (subst h; subst h2; omega)
  subst hux
  have hp2 : [v, w].Perm [y, z] := hp.cons_inv
  have hv : v ∈ [y, z] := hp2.mem_iff.mp (by simp)
  have hym : y ∈ [v, w] := hp2.mem_iff.mpr (by simp)
  simp only [List.mem_cons, List.mem_singleton, List.not_mem_nil, or_false] at hv hym
  have hvy : v = y := by
    rcases hv with h | h
    · exact h
    · exfalso
      rcases hym with h2 | h2 <;> (subst h; subst h2; omega)
  subst hvy
  have hp3 : [w].Perm [z] := hp2.cons_inv
  have hw : w = z := by
    have hmem : w ∈ [z] := hp3.mem_iff.mp (by simp)
    simpa using hmem
  subst hw
  rfl

/-- Applying the SET clause of `markCapsuleAsSent` to the table leaves the
matched row findable, now carrying the new status and timestamp. -/
theorem find?_after_markSent (store : List Capsule) (cid now : Nat)
    (x : Capsule) (h : store.find? (fun c => c.id == cid) = some x) :
    (store.map (fun c =>
      if c.id == cid then { c with status := Status.sent, sentAt := some now }
      else c)).find? (fun c => c.id == cid) =
    some { x with status := Status.sent, sentAt := some now } := by
  have hx : (x.id == cid) = true := by simpa using List.find?_some h
  rw [List.find?_map]
  have hcomp : ((fun c : Capsule => c.id == cid) ∘ (fun c =>
      if c.id == cid then { c with status := Status.sent, sentAt := some now }
      else c)) = fun c : Capsule => c.id == cid := by
    funext c
    by_cases hc : c.id = cid
    · simp [hc]
    · simp [hc]
  rw [hcomp, h]
  have hx2 : x.id = cid := by simpa using hx
  simp [hx2]

/-! ### Claims -/

/-- C1, counterexample: on a store holding exactly the capsule with id 1 in
Pending state, the first `markCapsuleAsSent` succeeds and stamps
`sentAt = 5`; the second call on the resulting store does NOT fail with
NotFound — it succeeds again and re-stamps `sentAt = 9`, applying a second
mutation.  This refutes the claim that the second call fails and that no
second status change is ever applied. -/
theorem C1_counterexample :
    markCapsuleAsSent [{ id := 1 : Capsule }] 1 5 =
      .ok ({ id := 1, status := .sent, sentAt := some 5 },
           [{ id := 1, status := .sent, sentAt := some 5 }]) ∧
    markCapsuleAsSent [{ id := 1, status := .sent, sentAt := some 5 : Capsule }] 1 9 =
      .ok ({ id := 1, status := .sent, sentAt := some 9 },
           [{ id := 1, status := .sent, sentAt := some 9 }]) := by
  constructor <;> rfl

/-- C1, amended: `markCapsuleAsSent` stamps `status = Sent` and
`sentAt = now` on the record with the given id regardless of its prior
status; it fails with NotFound exactly when no record with that id exists;
calling it twice on an existing id succeeds both times — the second call
does not fail, re-stamping `sentAt` with the later time. -/
theorem C1_markSent_amended (store : List Capsule) (cid now now2 : Nat) :
    (store.find? (fun c => c.id == cid) = none →
      markCapsuleAsSent store cid now = .error (notFoundMsg cid)) ∧
    (∀ x, store.find? (fun c => c.id == cid) = some x →
      markCapsuleAsSent store cid now =
        .ok ({ x with status := .sent, sentAt := some now },
             store.map (fun c =>
               if c.id == cid then { c with status := .sent, sentAt := some now }
               else c)) ∧
      markCapsuleAsSent
          (store.map (fun c =>
            if c.id == cid then { c with status := .sent, sentAt := some now }
            else c)) cid now2 =
        .ok ({ x with status := .sent, sentAt := some now2 },
             (store.map (fun c =>
               if c.id == cid then { c with status := .sent, sentAt := some now }
               else c)).map (fun c =>
                 if c.id == cid then { c with status := .sent, sentAt := some now2 }
                 else c))) := by
  constructor
  · intro h
    simp [markCapsuleAsSent, h]
  · intro x h
    constructor
    · simp [markCapsuleAsSent, h]
    · have h2 := find?_after_markSent store cid now x h
      unfold markCapsuleAsSent
      rw [h2]

/-- C1 witness: the amended behaviour at a concrete store. -/
theorem C1_markSent_amended_witness :
    markCapsuleAsSent [{ id := 7 : Capsule }] 7 3 =
      .ok ({ id := 7, status := .sent, sentAt := some 3 },
           [{ id := 7, status := .sent, sentAt := some 3 }]) ∧
    markCapsuleAsSent [{ id := 7, status := .sent, sentAt := some 3 : Capsule }] 7 4 =
      .ok ({ id := 7, status := .sent, sentAt := some 4 },
           [{ id := 7, status := .sent, sentAt := some 4 }]) := by
  have h := (C1_markSent_amended [{ id := 7 }] 7 3 4).2 { id := 7 } rfl
  simpa using h

/-- C2: `createTimeCapsuleTable` creates the due-date column as
`delivery_date` while `getCapsulesToSend` filters and orders by `open_date`
and `createTimeCapsule` inserts into `open_date`; consequently, against a
store created by `createTimeCapsuleTable`, every `getCapsulesToSend` call
raises a column error, and every scheduler cycle aborts — error counter
incremented, state back to Idle, no capsule processed, store and event log
untouched. -/
theorem C2_schema_mismatch :
    ("delivery_date" ∈ createTimeCapsuleTableColumns ∧
     "open_date" ∉ createTimeCapsuleTableColumns ∧
     "open_date" ∈ getCapsulesToSendColumns ∧
     "open_date" ∈ createTimeCapsuleInsertColumns) ∧
    (∀ (store : List Capsule) (now : Nat),
      runSelectDue createTimeCapsuleTableColumns store now =
        .error "column open_date does not exist") ∧
    (∀ (task : Task) (now : Nat) (w : W), w.isProcessing = false →
      runScheduler (fun st => runSelectDue createTimeCapsuleTableColumns st now)
          task now w =
        (.errored "column open_date does not exist",
         { w with isProcessing := false, processedCount := 0, errorCount := 0,
                  totalErrors := w.totalErrors + 1 })) := by
  have hcv : columnsValid createTimeCapsuleTableColumns getCapsulesToSendColumns = false := by
    simp [columnsValid, getCapsulesToSendColumns, createTimeCapsuleTableColumns]
  have hsel : ∀ (store : List Capsule) (now : Nat),
      runSelectDue createTimeCapsuleTableColumns store now =
        .error "column open_date does not exist" := by
    intro store now
    simp [runSelectDue, hcv]
  refine ⟨?_, hsel, ?_⟩
  · refine ⟨?_, ?_, ?_, ?_⟩ <;>
      simp [createTimeCapsuleTableColumns, getCapsulesToSendColumns,
        createTimeCapsuleInsertColumns]
  · intro task now w h
    simp only [runScheduler, h, Bool.false_eq_true, if_false, cycleStart, hsel]

/-- C2 witness: the abort at a concrete (empty) store and default state. -/
theorem C2_schema_mismatch_witness :
    runSelectDue createTimeCapsuleTableColumns [] 0 =
      .error "column open_date does not exist" ∧
    runScheduler (fun st => runSelectDue createTimeCapsuleTableColumns st 0)
        (mkTask (fun _ => .failure "boom" 3) 0) 0 {} =
      (.errored "column open_date does not exist",
       { ({} : W) with isProcessing := false, processedCount := 0,
                       errorCount := 0,
                       totalErrors := ({} : W).totalErrors + 1 }) :=
  ⟨C2_schema_mismatch.2.1 [] 0,
   C2_schema_mismatch.2.2 (mkTask (fun _ => .failure "boom" 3) 0) 0 {} rfl⟩

/-- C4: single-flight.  A trigger (timer tick or direct run) firing while a
cycle is Running observes the guard and skips — the state is untouched and
the outcome is the logged skip, never a queued second cycle; and whenever a
cycle actually starts (guard was clear), the guard is clear again after
`runScheduler` returns, for every fetch (including a throwing one) and every
task — the `finally` clears it on every exit path. -/
theorem C4_single_flight (fetch : List Capsule → Except String (List Capsule))
    (task : Task) (now : Nat) (w : W) :
    (w.isProcessing = true →
      runScheduler fetch task now w = (.skipped, w) ∧
      (w.timerScheduled = true →
        timerTick fetch task now w = (some .skipped, w))) ∧
    (w.isProcessing = false →
      ((runScheduler fetch task now w).2).isProcessing = false) := by
  constructor
  · intro h
    constructor
    · simp [runScheduler, h]
    · intro ht
      simp [timerTick, ht, runScheduler, h]
  · intro h
    simp only [runScheduler, h, Bool.false_eq_true, if_false]
    rcases hf : fetch (cycleStart w).store with e | caps
    · simp
    · by_cases hc : caps.isEmpty
      · simp [hc]
      · simp [hc]

/-- C4 witness: skip at a Running state, clear guard after a full cycle. -/
theorem C4_single_flight_witness :
    (runScheduler (fun _ => .ok []) (mkTask (fun _ => .failure "x" 3) 0) 0
        { isProcessing := true } = (.skipped, { isProcessing := true }) ∧
      timerTick (fun _ => .ok []) (mkTask (fun _ => .failure "x" 3) 0) 0
        { isProcessing := true, timerScheduled := true } =
        (some .skipped, { isProcessing := true, timerScheduled := true })) ∧
    ((runScheduler (fun _ => .error "down") (mkTask (fun _ => .failure "x" 3) 0) 0
        {}).2).isProcessing = false :=
  ⟨⟨((C4_single_flight (fun _ => .ok []) (mkTask (fun _ => .failure "x" 3) 0) 0
      { isProcessing := true }).1 rfl).1,
    ((C4_single_flight (fun _ => .ok []) (mkTask (fun _ => .failure "x" 3) 0) 0
      { isProcessing := true, timerScheduled := true }).1 rfl).2 rfl⟩,
   (C4_single_flight (fun _ => .error "down") (mkTask (fun _ => .failure "x" 3) 0) 0
      {}).2 rfl⟩

/-- C5: `getCapsulesToSend` returns exactly the rows with
`status = 'pending'` and `open_date <= now`, sorted ascending by
`open_date`; it leaves the store untouched; and for any three capsules with
strictly increasing open dates `T1 < T2 < T3 ≤ now`, all pending, stored in
any order, it returns them in date order. -/
theorem C5_fetchDue (store : List Capsule) (now : Nat) :
    (∀ c : Capsule, c ∈ getCapsulesToSend store now ↔
      c ∈ store ∧ c.status = .pending ∧ c.openDate ≤ now) ∧
    (getCapsulesToSend store now).Sorted openDateLE ∧
    (getCapsulesToSendS store now).2 = store ∧
    (∀ x y z : Capsule, ∀ store3 : List Capsule,
      store3.Perm [x, y, z] →
      x.status = .pending → y.status = .pending → z.status = .pending →
      x.openDate < y.openDate → y.openDate < z.openDate → z.openDate ≤ now →
      getCapsulesToSend store3 now = [x, y, z]) := by
  refine ⟨?_, ?_, rfl, ?_⟩
  · intro c
    simp [getCapsulesToSend, List.mem_filter, isDue, and_assoc]
  · exact List.sorted_insertionSort openDateLE _
  · intro x y z store3 hperm hpx hpy hpz hxy hyz hz
    have hfilter : store3.filter (isDue now) = store3 := by
      rw [List.filter_eq_self]
      intro a ha
      have ham : a ∈ [x, y, z] := hperm.mem_iff.mp ha
      simp only [List.mem_cons, List.mem_singleton, List.not_mem_nil, or_false] at ham
      rcases ham with h | h | h
      · subst h
        simp [isDue, hpx]
        omega
      · subst h
        simp [isDue, hpy]
        omega
      · subst h
        simp [isDue, hpz]
        omega
    unfold getCapsulesToSend
    rw [hfilter]
    exact sorted_three ((List.perm_insertionSort _ _).trans hperm)
      (List.sorted_insertionSort _ _) hxy hyz

/-- C5 witness: three due pending capsules stored out of order come back in
ascending `open_date` order. -/
theorem C5_fetchDue_witness :
    getCapsulesToSend
      [{ id := 3, openDate := 7 }, { id := 1, openDate := 2 },
       { id := 2, openDate := 5 }] 10 =
      [{ id := 1, openDate := 2 }, { id := 2, openDate := 5 },
       { id := 3, openDate := 7 }] :=
  (C5_fetchDue [] 10).2.2.2
    { id := 1, openDate := 2 } { id := 2, openDate := 5 } { id := 3, openDate := 7 }
    _ (by decide) rfl rfl rfl (by decide) (by decide) (by decide)

/-- C10: a fetch throw at cycle start aborts the cycle — `totalErrors` is
incremented, the state returns to Idle, and neither the store, the event
log, nor any per-cycle counter shows a processed capsule; and
`runSchedulerManually` never throws past the control surface: it always
returns a structured result, and whenever its runner throws it returns
`success: false` with the error message. -/
theorem C10_fetch_error_aborts
    (fetch : List Capsule → Except String (List Capsule)) (task : Task)
    (now : Nat) (w : W) (e : String)
    (h : w.isProcessing = false) (hf : fetch w.store = .error e) :
    (runScheduler fetch task now w =
      (.errored e,
       { w with isProcessing := false, processedCount := 0, errorCount := 0,
                totalErrors := w.totalErrors + 1 })) ∧
    (∀ (runner : W → Except String (RunOutcome × W)) (w2 : W),
      ((runSchedulerManually runner w2).1.success = true ∨
        ((runSchedulerManually runner w2).1.success = false ∧
         ((runSchedulerManually runner w2).1.error).isSome = true)) ∧
      (∀ e2, runner w2 = .error e2 →
        runSchedulerManually runner w2 =
          ({ success := false, message := none, error := some e2 }, w2))) := by
  constructor
  · simp only [runScheduler, h, Bool.false_eq_true, if_false, cycleStart, hf]
  · intro runner w2
    constructor
    · rcases hr : runner w2 with e2 | p
      · right
        simp [runSchedulerManually, hr]
      · left
        simp [runSchedulerManually, hr]
    · intro e2 hr
      simp [runSchedulerManually, hr]

/-- C10 witness: a concrete failing fetch aborts the cycle; a concrete
failing runner yields the structured failure result. -/
theorem C10_fetch_error_aborts_witness :
    runScheduler (fun _ => .error "db down") (mkTask (fun _ => .failure "x" 3) 0)
        0 {} =
      (.errored "db down",
       { ({} : W) with isProcessing := false, processedCount := 0,
                       errorCount := 0,
                       totalErrors := ({} : W).totalErrors + 1 }) ∧
    runSchedulerManually (fun _ => .error "kaput") {} =
      ({ success := false, message := none, error := some "kaput" }, {}) :=
  ⟨(C10_fetch_error_aborts (fun _ => .error "db down")
      (mkTask (fun _ => .failure "x" 3) 0) 0 {} "db down" rfl rfl).1,
   ((C10_fetch_error_aborts (fun _ => .error "db down")
      (mkTask (fun _ => .failure "x" 3) 0) 0 {} "db down" rfl rfl).2
      (fun _ => .error "kaput") {}).2 "kaput" rfl⟩

/-- C6: `processBatch` partitions its input into consecutive chunks of size
`maxConcurrentEmails` (default 3) preserving order — for 7 capsules exactly
the chunks [3, 3, 1]; concatenating the chunks restores the input; every
chunk is bounded by the configured size; it returns exactly one outcome per
input capsule, in input order (each carrying that capsule's id); and its
event trace runs the chunks strictly in order with one inter-chunk delay
between consecutive chunks and none after the last. -/
theorem C6_processBatch_chunking (a b c d e f g : Capsule)
    (es : Capsule → EmailResult) (now : Nat) (w : W) :
    (chunksOf SCHEDULER_CONFIG.maxConcurrentEmails [a, b, c, d, e, f, g] =
      [[a, b, c], [d, e, f], [g]]) ∧
    ((chunksOf SCHEDULER_CONFIG.maxConcurrentEmails [a, b, c, d, e, f, g]).map
      List.length = [3, 3, 1]) ∧
    (∀ (n : Nat) (l : List Capsule), (chunksOf n l).flatten = l) ∧
    (∀ (n : Nat), 1 ≤ n → ∀ (l bc : List Capsule),
      bc ∈ chunksOf n l → bc.length ≤ n) ∧
    (∀ caps : List Capsule,
      (processBatch (mkTask es now) caps w).1.map (fun o => o.capsuleId) =
        caps.map (fun cc => cc.id)) ∧
    (∀ caps : List Capsule,
      (processBatch (mkTask es now) caps w).1.length = caps.length) ∧
    (((processBatch (mkTask es now) [a, b, c, d, e, f, g] w).2).events =
      w.events ++
        [Ev.send a.id, Ev.send b.id, Ev.send c.id,
         Ev.delay SCHEDULER_CONFIG.delayBetweenEmails,
         Ev.send d.id, Ev.send e.id, Ev.send f.id,
         Ev.delay SCHEDULER_CONFIG.delayBetweenEmails,
         Ev.send g.id]) := by
  have hids : ∀ caps : List Capsule,
      (processBatch (mkTask es now) caps w).1.map (fun o => o.capsuleId) =
        caps.map (fun cc => cc.id) := by
    intro caps
    simp only [processBatch, processBatchGo_mkTask_ids es now, chunksOf_join]
  refine ⟨?_, ?_, fun n l => chunksOf_join n l,
          fun n hn l bc hb => chunksOf_length_le n hn l bc hb, hids, ?_, ?_⟩
  · simp [chunksOf, SCHEDULER_CONFIG]
  · simp [chunksOf, SCHEDULER_CONFIG]
  · intro caps
    have h := congrArg List.length (hids caps)
    simpa using h
  · simp only [processBatch, processBatchGo_mkTask_events es now]
    simp [chunksOf, SCHEDULER_CONFIG, batchEvents, chunkSends]

/-- C6 witness: the chunk shape at seven concrete capsules, and the chunk
bound discharged at a concrete chunk. -/
theorem C6_processBatch_chunking_witness :
    chunksOf SCHEDULER_CONFIG.maxConcurrentEmails
      [{ id := 1 : Capsule }, { id := 2 }, { id := 3 }, { id := 4 },
       { id := 5 }, { id := 6 }, { id := 7 }] =
      [[{ id := 1 }, { id := 2 }, { id := 3 }],
       [{ id := 4 }, { id := 5 }, { id := 6 }],
       [{ id := 7 }]] ∧
    ([{ id := 9 : Capsule }] : List Capsule).length ≤ 3 :=
  ⟨(C6_processBatch_chunking { id := 1 } { id := 2 } { id := 3 } { id := 4 }
      { id := 5 } { id := 6 } { id := 7 }
      (fun _ => .failure "x" 3) 0 {}).1,
   (C6_processBatch_chunking { id := 1 } { id := 2 } { id := 3 } { id := 4 }
      { id := 5 } { id := 6 } { id := 7 }
      (fun _ => .failure "x" 3) 0 {}).2.2.2.1 3 (by omega)
      [{ id := 9 }] [{ id := 9 }] (by simp [chunksOf])⟩

/-- C8: a capsule's outcome has `success = true` exactly when both the email
delivery and the `markCapsuleAsSent` store mutation succeeded; when the
mutation fails after a successful delivery, the outcome is a failure
carrying the thrown error, the store is left as it was (no rollback), and —
on every path — exactly one email dispatch happened for the capsule (no
re-send within the cycle). -/
theorem C8_outcome_success_iff (es : Capsule → EmailResult) (now : Nat)
    (c : Capsule) (db : Db) :
    (((processCapsule es now c db).1).success = true ↔
      ((∃ mid resp, es c = .success mid resp) ∧
       ∃ x, db.store.find? (fun y => y.id == c.id) = some x)) ∧
    (∀ mid resp, es c = .success mid resp →
      db.store.find? (fun y => y.id == c.id) = none →
      ((processCapsule es now c db).1).success = false ∧
      ((processCapsule es now c db).1).error = some (notFoundMsg c.id) ∧
      ((processCapsule es now c db).2).store = db.store) ∧
    (((processCapsule es now c db).2).events = db.events ++ [Ev.send c.id]) := by
  refine ⟨?_, ?_, processCapsule_events es now c db⟩
  · rcases h : es c with __ | __
    · rcases hfind : db.store.find? (fun y => y.id == c.id) with __ | x
      · simp [processCapsule, h, markCapsuleAsSent, hfind]
      · simp [processCapsule, h, markCapsuleAsSent, hfind]
    · simp [processCapsule, h]
  · intro mid resp hsucc hfind
    simp [processCapsule, hsucc, markCapsuleAsSent, hfind]

/-- C8 witness: a successful delivery whose `markCapsuleAsSent` hits an
absent id yields a failure outcome with the NotFound error and an untouched
store. -/
theorem C8_outcome_success_iff_witness :
    ((processCapsule (fun _ => .success "m" "r") 5 { id := 1 }
        { store := [], events := [] }).1).success = false ∧
    ((processCapsule (fun _ => .success "m" "r") 5 { id := 1 }
        { store := [], events := [] }).1).error = some (notFoundMsg 1) ∧
    ((processCapsule (fun _ => .success "m" "r") 5 { id := 1 }
        { store := [], events := [] }).2).store = [] :=
  (C8_outcome_success_iff (fun _ => .success "m" "r") 5 { id := 1 }
    { store := [], events := [] }).2.1 "m" "r" rfl rfl

/-- C9: fault isolation.  With three capsules in one chunk where the middle
capsule's delivery task rejects with an unexpected error while its siblings
deliver successfully, the rejection is converted at the per-task boundary
into a failure outcome for that capsule only: the cycle completes with one
outcome per input capsule in order, the siblings are marked Sent in the
store, the rejected capsule's row is untouched, and the scheduler returns to
Idle. -/
theorem C9_fault_isolation (a b c : Capsule) (es : Capsule → EmailResult)
    (task : Task) (reason ma ra mc rc : String) (now : Nat) (w : W)
    (hw : w.isProcessing = false) (hst : w.store = [a, b, c])
    (hab : a.id ≠ b.id) (hac : a.id ≠ c.id) (hbc : b.id ≠ c.id)
    (hea : es a = .success ma ra) (hec : es c = .success mc rc)
    (hreason : reason ≠ "")
    (htask : task = fun x db =>
      if x.id = b.id then (.rejected reason, db) else mkTask es now x db) :
    (runScheduler (fun _ => .ok [a, b, c]) task now w).1 =
      .completed
        [{ success := true, capsuleId := a.id, email := a.email,
           messageId := some ma, error := none },
         { success := false, capsuleId := b.id, email := b.email,
           messageId := none, error := some reason },
         { success := true, capsuleId := c.id, email := c.email,
           messageId := some mc, error := none }] ∧
    ((runScheduler (fun _ => .ok [a, b, c]) task now w).2).store =
      [{ a with status := .sent, sentAt := some now }, b,
       { c with status := .sent, sentAt := some now }] ∧
    ((runScheduler (fun _ => .ok [a, b, c]) task now w).2).isProcessing = false := by
  subst htask
  have hba : b.id ≠ a.id := Ne.symm hab
  have hca : c.id ≠ a.id := Ne.symm hac
  have hcb : c.id ≠ b.id := Ne.symm hbc
  have e1 : (a.id == b.id) = false := by simp [hab]
  have e2 : (b.id == a.id) = false := by simp [hba]
  have e3 : (a.id == c.id) = false := by simp [hac]
  have e4 : (c.id == a.id) = false := by simp [hca]
  have e5 : (b.id == c.id) = false := by simp [hbc]
  have e6 : (c.id == b.id) = false := by simp [hcb]
  refine ⟨?_, ?_, ?_⟩ <;>
    simp [runScheduler, hw, cycleStart, hst, processBatch, chunksOf,
      SCHEDULER_CONFIG, processBatchGo, stepChunk, runChunk, mkTask,
      processCapsule, markCapsuleAsSent, settleOne, recordResult, hea, hec,
      hreason, List.find?, hab, hac, hbc, hba, hca, hcb, e1, e2, e3, e4, e5, e6]

/-- C9 witness: the isolation at three concrete capsules. -/
theorem C9_fault_isolation_witness :
    (runScheduler (fun _ => .ok [{ id := 1 }, { id := 2 }, { id := 3 }])
        (fun x db =>
          if x.id = ({ id := 2 : Capsule }).id then (.rejected "boom", db)
          else mkTask (fun _ => .success "m" "r") 9 x db) 9
        { store := [{ id := 1 }, { id := 2 }, { id := 3 }] }).1 =
      .completed
        [{ success := true, capsuleId := 1, email := "",
           messageId := some "m", error := none },
         { success := false, capsuleId := 2, email := "",
           messageId := none, error := some "boom" },
         { success := true, capsuleId := 3, email := "",
           messageId := some "m", error := none }] ∧
    ((runScheduler (fun _ => .ok [{ id := 1 }, { id := 2 }, { id := 3 }])
        (fun x db =>
          if x.id = ({ id := 2 : Capsule }).id then (.rejected "boom", db)
          else mkTask (fun _ => .success "m" "r") 9 x db) 9
        { store := [{ id := 1 }, { id := 2 }, { id := 3 }] }).2).store =
      [{ id := 1, status := .sent, sentAt := some 9 }, { id := 2 },
       { id := 3, status := .sent, sentAt := some 9 }] ∧
    ((runScheduler (fun _ => .ok [{ id := 1 }, { id := 2 }, { id := 3 }])
        (fun x db =>
          if x.id = ({ id := 2 : Capsule }).id then (.rejected "boom", db)
          else mkTask (fun _ => .success "m" "r") 9 x db) 9
        { store := [{ id := 1 }, { id := 2 }, { id := 3 }] }).2).isProcessing =
      false :=
  C9_fault_isolation { id := 1 } { id := 2 } { id := 3 }
    (fun _ => .success "m" "r") _ "boom" "m" "r" "m" "r" 9
    { store := [{ id := 1 }, { id := 2 }, { id := 3 }] }
    rfl rfl (by decide) (by decide) (by decide) rfl rfl (by decide) rfl

/-- A failed attempt below the retry cap sleeps once and recurses. -/
theorem sendTimeCapsuleEmail_step (attempt : Nat → Except String (String × String))
    (k : Nat) (e : String) (hk : k < EMAIL_CONFIG.maxRetries - 1)
    (h : attempt k = .error e) :
    sendTimeCapsuleEmail attempt k =
      ((sendTimeCapsuleEmail attempt (k + 1)).1,
       EMAIL_CONFIG.retryDelay :: (sendTimeCapsuleEmail attempt (k + 1)).2) := by
  rw [sendTimeCapsuleEmail, h]
  simp [hk]

/-- A failed attempt at the retry cap returns the failure object with the
last error and the attempt count, with no further sleep. -/
theorem sendTimeCapsuleEmail_last (attempt : Nat → Except String (String × String))
    (k : Nat) (e : String) (hk : ¬ k < EMAIL_CONFIG.maxRetries - 1)
    (h : attempt k = .error e) :
    sendTimeCapsuleEmail attempt k = (.failure e (k + 1), []) := by
  rw [sendTimeCapsuleEmail, h]
  simp [hk]

/-- A successful attempt returns the success object at once. -/
theorem sendTimeCapsuleEmail_ok (attempt : Nat → Except String (String × String))
    (k : Nat) (p : String × String) (h : attempt k = .ok p) :
    sendTimeCapsuleEmail attempt k = (.success p.1 p.2, []) := by
  rw [sendTimeCapsuleEmail, h]

/-- C7: `sendTimeCapsuleEmail` retries up to the fixed `maxRetries = 3`
attempts with a constant `retryDelay = 5000` ms sleep between attempts;
when every attempt fails it returns — never throws — the failure object
carrying the last error message and the attempt count 3, having slept
exactly twice; and on every possible attempt oracle it performs at most
`maxRetries - 1` sleeps, each of exactly the constant delay. -/
theorem C7_email_retry (attempt : Nat → Except String (String × String))
    (e0 e1 e2 : String)
    (h0 : attempt 0 = .error e0) (h1 : attempt 1 = .error e1)
    (h2 : attempt 2 = .error e2) :
    (EMAIL_CONFIG.maxRetries = 3 ∧ EMAIL_CONFIG.retryDelay = 5000) ∧
    sendTimeCapsuleEmail attempt 0 =
      (.failure e2 EMAIL_CONFIG.maxRetries,
       [EMAIL_CONFIG.retryDelay, EMAIL_CONFIG.retryDelay]) ∧
    (∀ g : Nat → Except String (String × String),
      (sendTimeCapsuleEmail g 0).2.length ≤ EMAIL_CONFIG.maxRetries - 1 ∧
      ∀ dd ∈ (sendTimeCapsuleEmail g 0).2, dd = EMAIL_CONFIG.retryDelay) := by
  refine ⟨⟨rfl, rfl⟩, ?_, ?_⟩
  · rw [sendTimeCapsuleEmail_step attempt 0 e0 (by decide) h0,
        sendTimeCapsuleEmail_step attempt 1 e1 (by decide) h1,
        sendTimeCapsuleEmail_last attempt 2 e2 (by decide) h2]
    rfl
  · intro g
    rcases hg0 : g 0 with f0 | p0
    · rcases hg1 : g 1 with f1 | p1
      · rcases hg2 : g 2 with f2 | p2
        · rw [sendTimeCapsuleEmail_step g 0 f0 (by decide) hg0,
              sendTimeCapsuleEmail_step g 1 f1 (by decide) hg1,
              sendTimeCapsuleEmail_last g 2 f2 (by decide) hg2]
          simp [EMAIL_CONFIG]
        · rw [sendTimeCapsuleEmail_step g 0 f0 (by decide) hg0,
              sendTimeCapsuleEmail_step g 1 f1 (by decide) hg1,
              sendTimeCapsuleEmail_ok g 2 p2 hg2]
          simp [EMAIL_CONFIG]
      · rw [sendTimeCapsuleEmail_step g 0 f0 (by decide) hg0,
            sendTimeCapsuleEmail_ok g 1 p1 hg1]
        simp [EMAIL_CONFIG]
    · rw [sendTimeCapsuleEmail_ok g 0 p0 hg0]
      simp

/-- C7 witness: an oracle whose every attempt fails. -/
theorem C7_email_retry_witness :
    sendTimeCapsuleEmail (fun _ => .error "boom") 0 =
      (.failure "boom" EMAIL_CONFIG.maxRetries,
       [EMAIL_CONFIG.retryDelay, EMAIL_CONFIG.retryDelay]) :=
  (C7_email_retry (fun _ => .error "boom") "boom" "boom" "boom"
    rfl rfl rfl).2.1

/-- C3 evaluated at the failing scenario: `startScheduler` succeeds;
`stopSchedulerDrained` (stop observed after its polling wait) resolves
`true` and clears `isRunning` — but the cron job registration is left in
place (`timerScheduled` still `true`), because `stopScheduler` in
`scheduler.js` never calls `schedulerJob.stop()` (the job handle is a local
variable of `startScheduler`).  A subsequent timer tick therefore still
starts and completes a full scheduler cycle, delivering and marking a
capsule — contradicting the claim that after stop resolves `true` no
further cycle is ever started by the timer. -/
theorem C3_stop_leaves_timer_running :
    (startScheduler { store := [{ id := 1, email := "a@b.c" }] } 100).1 = true ∧
    (stopSchedulerDrained
      (startScheduler { store := [{ id := 1, email := "a@b.c" }] } 100).2).1 = true ∧
    ((stopSchedulerDrained
      (startScheduler { store := [{ id := 1, email := "a@b.c" }] } 100).2).2).isRunning
      = false ∧
    ((stopSchedulerDrained
      (startScheduler { store := [{ id := 1, email := "a@b.c" }] } 100).2).2).timerScheduled
      = true ∧
    (timerTick (fun st => .ok (getCapsulesToSend st 10))
        (mkTask (fun _ => .success "m" "r") 10) 10
        (stopSchedulerDrained
          (startScheduler { store := [{ id := 1, email := "a@b.c" }] } 100).2).2).1 =
      some (.completed
        [{ success := true, capsuleId := 1, email := "a@b.c",
           messageId := some "m", error := none }]) ∧
    ((timerTick (fun st => .ok (getCapsulesToSend st 10))
        (mkTask (fun _ => .success "m" "r") 10) 10
        (stopSchedulerDrained
          (startScheduler { store := [{ id := 1, email := "a@b.c" }] } 100).2).2).2).store =
      [{ id := 1, email := "a@b.c", status := .sent, sentAt := some 10 }] := by
  refine ⟨rfl, rfl, rfl, rfl, ?_, ?_⟩ <;>
    simp [startScheduler, stopSchedulerDrained, timerTick, runScheduler,
      cycleStart, getCapsulesToSend, isDue, List.insertionSort,
      List.orderedInsert, processBatch, chunksOf, SCHEDULER_CONFIG,
      processBatchGo, stepChunk, runChunk, mkTask, processCapsule,
      markCapsuleAsSent, settleOne, recordResult, List.find?, openDateLE]

